import Mathlib

/-!
Verification of the btrfs-perf roundrobin tuning scripts.

This file gives a shallow embedding of the parameter-space search engine of
`roundrobin-tune.py`, the fio output parsing of `fio.py` and the scoped
read-policy switch of `btrfs.py`, and proves properties of the embedded
definitions.  External effects (sysfs writes, cache drops, fio invocations)
are modelled as an explicit event trace; the fio measurement itself is an
oracle parameter.
-/

namespace BtrfsPerf

/-- Benchmark type, mirroring the `BenchmarkType` enum of roundrobin-tune.py. -/
inductive BenchmarkType where
  | seqread
  | randread
deriving DecidableEq

/-- `N_ITER` of roundrobin-tune.py: the default candidate range bound. -/
def N_ITER : Nat := 10

/-- `fio.DEFAULT_LOOPS`. -/
def DEFAULT_LOOPS : Nat := 3

/-- `fio.DEFAULT_SIZE`. -/
def DEFAULT_SIZE : String := "10G"

/-- The fields of the fio job file that the template `DEFAULT_FIO_JOB` of
fio.py fills in (`rw`, `loops`, `numjobs`, `size`). -/
structure JobContent where
  rw : String
  loops : Nat
  numjobs : Nat
  size : String
deriving DecidableEq

/-- The `rw=` value used by the job constructors of fio.py. -/
def rwOf : BenchmarkType → String
  | .seqread => "read"
  | .randread => "randread"

/-- `fio.job_seqread_singlethread` / `fio.job_randread_singlethread`:
`numjobs=1`; `remove_null_kwargs` makes a `None` argument fall back to the
default. -/
def job_singlethread (bt : BenchmarkType) (loops : Option Nat)
    (size : Option String) : JobContent :=
  { rw := rwOf bt, loops := loops.getD DEFAULT_LOOPS, numjobs := 1,
    size := size.getD DEFAULT_SIZE }

/-- `fio.job_seqread_multithread` / `fio.job_randread_multithread`:
`numjobs=os.cpu_count()` (here the parameter `cpuCount`). -/
def job_multithread (cpuCount : Nat) (bt : BenchmarkType) (loops : Option Nat)
    (size : Option String) : JobContent :=
  { rw := rwOf bt, loops := loops.getD DEFAULT_LOOPS, numjobs := cpuCount,
    size := size.getD DEFAULT_SIZE }

/-- The workload descriptor handed to the measurement collaborator: either a
job synthesized from the template, or a caller-supplied job file
(identified by its path). -/
inductive Workload where
  | synthesized : JobContent → Workload
  | jobFile : String → Workload
deriving DecidableEq

/-- Workload selection of `run_fio` in roundrobin-tune.py: a caller-supplied
job replaces synthesis entirely; otherwise the job content is built from the
`FIO_JOBS_MULTITHREAD` / `FIO_JOBS_SINGLETHREAD` tables. -/
def run_fio_workload (cpuCount : Nat) (multithread : Bool) (bt : BenchmarkType)
    (loops : Option Nat) (size : String) (job : Option String) : Workload :=
  match job with
  | some j => Workload.jobFile j
  | none =>
    if multithread then
      Workload.synthesized (job_multithread cpuCount bt loops (some size))
    else
      Workload.synthesized (job_singlethread bt loops (some size))

/-- `fio.bandwidth_to_mibs`: Python `round(bw / 1024)`, where the division is
exact in floating point and `round` rounds half to even. -/
def bandwidth_to_mibs (bw : Int) : Int :=
  let q := bw / 1024
  let r := bw % 1024
  if r < 512 then q
  else if 512 < r then q + 1
  else if q % 2 = 0 then q else q + 1

/-- `fio.get_bandwidth` over the parsed list of per-job `read.bw` samples:
`none` models the `assert len(jobs) > 0` failing on empty output; a single
job yields no aggregate; several jobs yield the sum of all samples. -/
def get_bandwidth (jobs : List Int) (to_mibs : Bool) :
    Option (Int × Option Int) :=
  match jobs with
  | [] => none
  | bw0 :: rest =>
    let bwSingle := if to_mibs then bandwidth_to_mibs bw0 else bw0
    if (bw0 :: rest).length = 1 then
      some (bwSingle, none)
    else
      let s := (bw0 :: rest).sum
      some (bwSingle, some (if to_mibs then bandwidth_to_mibs s else s))

/-- Result of the `run_fio` helper of roundrobin-tune.py, parameterized by an
oracle giving the per-worker samples fio reports for a workload.  Both the
job-file path (`fio.run_fio`) and the pipe path (`fio.run_fio_pipe`) parse
with the default `to_mibs=False`. -/
def run_fio_rt (oracle : Workload → List Int) (cpuCount : Nat)
    (multithread : Bool) (bt : BenchmarkType) (loops : Option Nat)
    (size : String) (job : Option String) : Option (Int × Option Int) :=
  get_bandwidth (oracle (run_fio_workload cpuCount multithread bt loops size job))
    false

/-- The nine ranking variables of `tune_mixed_inc`; `none` stands for the
initial `float("-inf")` of the `max_bw_*` variables. -/
structure Slots where
  max_bw_1 : Option Int
  max_bw_2 : Option Int
  max_bw_3 : Option Int
  best_n_nonrot_1 : Nat
  best_n_nonrot_2 : Nat
  best_n_nonrot_3 : Nat
  best_n_rot_1 : Nat
  best_n_rot_2 : Nat
  best_n_rot_3 : Nat
deriving DecidableEq

/-- Initial ranking state of `tune_mixed_inc`. -/
def initSlots : Slots :=
  { max_bw_1 := none, max_bw_2 := none, max_bw_3 := none,
    best_n_nonrot_1 := 0, best_n_nonrot_2 := 0, best_n_nonrot_3 := 0,
    best_n_rot_1 := 0, best_n_rot_2 := 0, best_n_rot_3 := 0 }

/-- `bw > m` with `none` as `float("-inf")`: any sample beats `-inf`. -/
def bwGt (bw : Int) : Option Int → Bool
  | none => true
  | some m => decide (m < bw)

/-- The ranking update of `tune_mixed_inc` (lines 170-196), exactly as the
code performs it, including the two self-assignments: in the first branch
`best_n_nonrot_2 = best_n_nonrot_2` (line 176) and in the second branch
`best_n_rot_3 = best_n_rot_3` (line 190). -/
def updateSlots (s : Slots) (i_nonrot i_rot : Nat) (bw : Int) : Slots :=
  if bwGt bw s.max_bw_1 then
    { max_bw_3 := s.max_bw_2
      max_bw_2 := s.max_bw_1
      max_bw_1 := some bw
      best_n_nonrot_3 := s.best_n_nonrot_2
      best_n_nonrot_2 := s.best_n_nonrot_2
      best_n_nonrot_1 := i_nonrot
      best_n_rot_3 := s.best_n_rot_2
      best_n_rot_2 := s.best_n_rot_1
      best_n_rot_1 := i_rot }
  else if bwGt bw s.max_bw_2 then
    { s with
      max_bw_3 := s.max_bw_2
      max_bw_2 := some bw
      best_n_nonrot_3 := s.best_n_nonrot_2
      best_n_nonrot_2 := i_nonrot
      best_n_rot_3 := s.best_n_rot_3
      best_n_rot_2 := i_rot }
  else if bwGt bw s.max_bw_3 then
    { s with
      max_bw_3 := some bw
      best_n_nonrot_3 := i_nonrot
      best_n_rot_3 := i_rot }
  else
    s

/-- Modelled from the spec: the cascading bounded-insertion update that
spec section 4.3 demands (slot 1's former occupant shifts to slot 2, slot 2's
former occupant shifts to slot 3), for comparison with `updateSlots`, which
mirrors the code as written. -/
def updateSlotsCorrect (s : Slots) (i_nonrot i_rot : Nat) (bw : Int) : Slots :=
  if bwGt bw s.max_bw_1 then
    { max_bw_3 := s.max_bw_2
      max_bw_2 := s.max_bw_1
      max_bw_1 := some bw
      best_n_nonrot_3 := s.best_n_nonrot_2
      best_n_nonrot_2 := s.best_n_nonrot_1
      best_n_nonrot_1 := i_nonrot
      best_n_rot_3 := s.best_n_rot_2
      best_n_rot_2 := s.best_n_rot_1
      best_n_rot_1 := i_rot }
  else if bwGt bw s.max_bw_2 then
    { s with
      max_bw_3 := s.max_bw_2
      max_bw_2 := some bw
      best_n_nonrot_3 := s.best_n_nonrot_2
      best_n_nonrot_2 := i_nonrot
      best_n_rot_3 := s.best_n_rot_2
      best_n_rot_2 := i_rot }
  else if bwGt bw s.max_bw_3 then
    { s with
      max_bw_3 := some bw
      best_n_nonrot_3 := i_nonrot
      best_n_rot_3 := i_rot }
  else
    s

/-- Folding the ranking update of the code over a stream of trial results
(candidate, single-worker bandwidth) arriving in enumeration order. -/
def rankFold (l : List ((Nat × Nat) × Int)) : Slots :=
  l.foldl (fun s p => updateSlots s p.1.1 p.1.2 p.2) initSlots

/-- Folding the spec-demanded cascading update over the same stream. -/
def rankFoldCorrect (l : List ((Nat × Nat) × Int)) : Slots :=
  l.foldl (fun s p => updateSlotsCorrect s p.1.1 p.1.2 p.2) initSlots

/-- The slot-1 content of a ranking state as a (candidate, bandwidth) pair;
`none` while no trial has been recorded. -/
def slot1 (s : Slots) : Option ((Nat × Nat) × Int) :=
  s.max_bw_1.map fun m => ((s.best_n_nonrot_1, s.best_n_rot_1), m)

/-- One step of the K=1 ranking as the spec states it: replace the maintained
best exactly when a strictly greater bandwidth is observed. -/
def k1step (acc : Option ((Nat × Nat) × Int)) (p : (Nat × Nat) × Int) :
    Option ((Nat × Nat) × Int) :=
  match acc with
  | none => some p
  | some q => if q.2 < p.2 then some p else acc

/-- The maintained K=1 best over a whole stream of trial results. -/
def k1best (l : List ((Nat × Nat) × Int)) : Option ((Nat × Nat) × Int) :=
  l.foldl k1step none

/-- The candidate enumeration of `tune_mixed_inc`: outer loop over the
non-rotational range, inner loop over the rotational range. -/
def candidates (n_nonrot n_rot : Nat) : List (Nat × Nat) :=
  (List.range n_nonrot).flatMap fun i => (List.range n_rot).map fun j => (i, j)

/-- Externally visible side effects of the tuning scripts. -/
inductive Event where
  | dropCaches : Event
  | setNonrot : Nat → Event
  | setRot : Nat → Event
  | runFio : Workload → Event
  | setPolicy : String → Event
deriving DecidableEq

/-- Whether an event is a measurement invocation. -/
def isRunFio : Event → Bool
  | .runFio _ => true
  | _ => false

/-- Whether an event is a cache reset. -/
def isDropCaches : Event → Bool
  | .dropCaches => true
  | _ => false

/-- Whether an event is a read-policy write. -/
def isSetPolicy : Event → Bool
  | .setPolicy _ => true
  | _ => false

/-- The events of one trial of `tune_mixed_inc`, in the order of the loop
body: drop caches, write the non-rotational value, write the rotational
value, invoke fio. -/
def trialEvents (c : Nat × Nat) (w : Workload) : List Event :=
  [Event.dropCaches, Event.setNonrot c.1, Event.setRot c.2, Event.runFio w]

/-- The trial loop of `tune_mixed_inc` over a list of candidates, with a
fallible measurement oracle: a failing measurement aborts the remaining
trials and propagates the error, after the failing trial's cache reset,
tunable writes and measurement attempt have happened. -/
def runTrials (meas : Nat × Nat → Except Unit Int) (w : Workload) :
    List (Nat × Nat) → Slots → List Event × Except Unit Slots
  | [], s => ([], Except.ok s)
  | c :: cs, s =>
    match meas c with
    | Except.error e => (trialEvents c w, Except.error e)
    | Except.ok bw =>
      (trialEvents c w ++ (runTrials meas w cs (updateSlots s c.1 c.2 bw)).1,
       (runTrials meas w cs (updateSlots s c.1 c.2 bw)).2)

/-- `tune_mixed_inc`: run every candidate of the grid, then commit slot 1's
values with one write per tunable (lines 213-214).  On a measurement failure
the error propagates and no commit happens. -/
def tune_mixed_inc (meas : Nat × Nat → Except Unit Int) (cpuCount : Nat)
    (multithread : Bool) (bt : BenchmarkType) (loops : Option Nat)
    (size : String) (n_nonrot n_rot : Nat) (job : Option String) :
    List Event × Except Unit Slots :=
  let w := run_fio_workload cpuCount multithread bt loops size job
  let r := runTrials meas w (candidates n_nonrot n_rot) initSlots
  match r.2 with
  | Except.error e => (r.1, Except.error e)
  | Except.ok s =>
    (r.1 ++ [Event.setNonrot s.best_n_nonrot_1, Event.setRot s.best_n_rot_1],
     Except.ok s)

/-- `tune_nonrot_inc`: delegates to `tune_mixed_inc` with `n_rot=1` and
`job=job`; its own `loops` and `size` arguments are not forwarded, so
`tune_mixed_inc` runs with its defaults. -/
def tune_nonrot_inc (meas : Nat × Nat → Except Unit Int) (cpuCount : Nat)
    (multithread : Bool) (bt : BenchmarkType) (loops : Option Nat)
    (size : String) (job : Option String) : List Event × Except Unit Slots :=
  tune_mixed_inc meas cpuCount multithread bt (some DEFAULT_LOOPS) DEFAULT_SIZE
    N_ITER 1 job

/-- `tune_rot_inc`: delegates to `tune_mixed_inc` with `n_nonrot=1` and
`job=job`; its own `loops` and `size` arguments are not forwarded. -/
def tune_rot_inc (meas : Nat × Nat → Except Unit Int) (cpuCount : Nat)
    (multithread : Bool) (bt : BenchmarkType) (loops : Option Nat)
    (size : String) (job : Option String) : List Event × Except Unit Slots :=
  tune_mixed_inc meas cpuCount multithread bt (some DEFAULT_LOOPS) DEFAULT_SIZE
    1 N_ITER job

/-- Python `str.split()` on whitespace: split and drop empty pieces. -/
def splitWs (s : String) : List String :=
  (s.split fun c => c.isWhitespace).filter fun w => w ≠ ""

/-- Python `p[1:-1]`: drop the first and the last character. -/
def stripFirstLast (p : String) : String :=
  ((p.toList.drop 1).dropLast).asString

/-- The `old_policy` computation of `btrfs.set_policy`: start from the
literal fallback `"pid"` and take the bracket-marked entry of the policy
file, the last one if several are bracketed. -/
def oldPolicyOf (content : String) : String :=
  (splitWs content).foldl
    (fun old p => if p.startsWith "[" then stripFirstLast p else old) "pid"

/-- `main` of roundrobin-tune.py in joint mode, under the
`btrfs.set_policy(fsid, "roundrobin")` context manager: write the search
policy, run the search body, and restore the previously active policy in a
`finally` block on both the success and the failure path. -/
def mainRun (content : String) (meas : Nat × Nat → Except Unit Int)
    (cpuCount : Nat) (multithread : Bool) (bt : BenchmarkType)
    (loops : Option Nat) (size : String) (n_nonrot n_rot : Nat)
    (job : Option String) : List Event × Except Unit Unit :=
  let r := tune_mixed_inc meas cpuCount multithread bt loops size n_nonrot
    n_rot job
  (Event.setPolicy "roundrobin" ::
     (r.1 ++ [Event.setPolicy (oldPolicyOf content)]),
   r.2.map fun _ => ())

/-! ### Helper lemmas about the K=1 ranking (slot 1) -/

/-- The code's ranking update refines the spec's K=1 update on slot 1:
branches 2 and 3 do not touch the slot-1 variables, and branch 1 installs
the new result exactly when it strictly beats the maintained best. -/
lemma slot1_updateSlots (s : Slots) (i j : Nat) (bw : Int) :
    slot1 (updateSlots s i j bw) = k1step (slot1 s) ((i, j), bw) := by
  unfold updateSlots
  by_cases h1 : bwGt bw s.max_bw_1 = true
  · rw [if_pos h1]
    cases hm : s.max_bw_1 with
    | none => simp [slot1, k1step, hm]
    | some m =>
      have hlt : m < bw := by simpa [bwGt, hm] using h1
      simp [slot1, k1step, hm, hlt]
  · rw [if_neg h1]
    obtain ⟨m, hm, hlt⟩ : ∃ m, s.max_bw_1 = some m ∧ ¬ m < bw := by
      cases hm : s.max_bw_1 with
      | none => simp [bwGt, hm] at h1
      | some m => exact ⟨m, rfl, by simpa [bwGt, hm] using h1⟩
    have hkeep : k1step (slot1 s) ((i, j), bw) = slot1 s := by
      simp [slot1, k1step, hm, hlt]
    rw [hkeep]
    split
    · simp [slot1]
    · split
      · simp [slot1]
      · rfl

/-- Folding the code's update commutes with folding the spec's K=1 update
through the slot-1 projection. -/
lemma slot1_foldl (l : List ((Nat × Nat) × Int)) :
    ∀ s : Slots,
      slot1 (l.foldl (fun s p => updateSlots s p.1.1 p.1.2 p.2) s)
        = l.foldl k1step (slot1 s) := by
  induction l with
  | nil => intro s; rfl
  | cons p l ih =>
    intro s
    rw [List.foldl_cons, List.foldl_cons, ih, slot1_updateSlots]

/-- Slot 1 of the code's ranking fold is exactly the spec's maintained K=1
best. -/
lemma slot1_rankFold (l : List ((Nat × Nat) × Int)) :
    slot1 (rankFold l) = k1best l := slot1_foldl l initSlots

/-- One K=1 update always yields a recorded best. -/
lemma k1step_isSome (acc : Option ((Nat × Nat) × Int))
    (p : (Nat × Nat) × Int) : (k1step acc p).isSome := by
  cases acc with
  | none => rfl
  | some q =>
    simp only [k1step]
    split <;> rfl

/-- Unfolding the K=1 fold at the last result. -/
lemma k1best_concat (l : List ((Nat × Nat) × Int)) (p : (Nat × Nat) × Int) :
    k1best (l ++ [p]) = k1step (k1best l) p := by
  simp [k1best, List.foldl_append]

/-- The maintained best is absent only before any result arrived. -/
lemma k1best_eq_none {l : List ((Nat × Nat) × Int)}
    (h : k1best l = none) : l = [] := by
  induction l using List.reverseRecOn with
  | nil => rfl
  | append_singleton l p _ =>
    rw [k1best_concat] at h
    have := k1step_isSome (k1best l) p
    rw [h] at this
    simp at this

/-- The maintained K=1 best bounds every bandwidth of the stream. -/
lemma k1best_le (l : List ((Nat × Nat) × Int)) :
    ∀ c m, k1best l = some (c, m) → ∀ p ∈ l, p.2 ≤ m := by
  induction l using List.reverseRecOn with
  | nil =>
    intro c m h p hp
    simp at hp
  | append_singleton l x ih =>
    intro c m h p hp
    rw [k1best_concat] at h
    rcases List.mem_append.mp hp with hpl | hpx
    · cases hacc : k1best l with
      | none =>
        have := k1best_eq_none hacc
        subst this
        simp at hpl
      | some q =>
        rw [hacc] at h
        have hq : p.2 ≤ q.2 := by
          have := ih q.1 q.2 (by simpa using hacc) p hpl
          simpa using this
        simp only [k1step] at h
        split at h
        · rename_i hlt
          injection h with h
          subst h
          exact le_of_lt (lt_of_le_of_lt hq hlt)
        · injection h with h
          subst h
          exact hq
    · have hx : p = x := by simpa using hpx
      subst hx
      cases hacc : k1best l with
      | none =>
        rw [hacc] at h
        simp only [k1step] at h
        injection h with h
        subst h
        exact le_refl _
      | some q =>
        rw [hacc] at h
        simp only [k1step] at h
        split at h
        · injection h with h
          subst h
          exact le_refl _
        · rename_i hlt
          injection h with h
          subst h
          exact le_of_not_lt hlt

/-- The maintained K=1 best is the first element of the stream whose
bandwidth reaches the maintained maximum: an exact tie keeps the earlier
(first-enumerated) result. -/
lemma k1best_first (l : List ((Nat × Nat) × Int)) :
    ∀ c m, k1best l = some (c, m) →
      l.find? (fun p => decide (m ≤ p.2)) = some (c, m) := by
  induction l using List.reverseRecOn with
  | nil =>
    intro c m h
    simp [k1best] at h
  | append_singleton l x ih =>
    intro c m h
    rw [k1best_concat] at h
    cases hacc : k1best l with
    | none =>
      have hl := k1best_eq_none hacc
      subst hl
      rw [hacc] at h
      simp only [k1step] at h
      injection h with h
      subst h
      simp [List.find?]
    | some q =>
      rw [hacc] at h
      simp only [k1step] at h
      rw [List.find?_append]
      split at h
      · rename_i hlt
        injection h with h
        subst h
        simp only at hlt
        have hnone : l.find? (fun p => decide (m ≤ p.2)) = none := by
          rw [List.find?_eq_none]
          intro p hp
          have hle : p.2 ≤ q.2 := by
            have := k1best_le l q.1 q.2 (by simpa using hacc) p hp
            simpa using this
          simp only [decide_eq_true_eq]
          omega
        rw [hnone]
        simp [List.find?]
      · injection h with h
        subst h
        rw [ih c m (by simpa using hacc)]
        rfl

/-! ### Helper lemmas about the candidate enumeration and the trial trace -/

/-- Peeling the last row of the row-major enumeration. -/
lemma candidates_succ (n1 n2 : Nat) :
    candidates (n1 + 1) n2
      = candidates n1 n2 ++ (List.range n2).map fun j => (n1, j) := by
  simp [candidates, List.range_succ]

/-- The enumeration covers exactly the Cartesian product of the two ranges. -/
lemma mem_candidates {n1 n2 : Nat} {p : Nat × Nat} :
    p ∈ candidates n1 n2 ↔ p.1 < n1 ∧ p.2 < n2 := by
  cases p with
  | mk i j =>
    simp only [candidates, List.mem_flatMap, List.mem_map, List.mem_range]
    constructor
    · rintro ⟨a, ha, b, hb, hab⟩
      obtain ⟨rfl, rfl⟩ := Prod.mk.injEq .. ▸ hab
      exact ⟨ha, hb⟩
    · rintro ⟨hi, hj⟩
      exact ⟨i, hi, j, hj, rfl⟩

/-- Total number of enumerated candidates. -/
lemma candidates_length (n1 n2 : Nat) :
    (candidates n1 n2).length = n1 * n2 := by
  induction n1 with
  | zero => simp [candidates]
  | succ n ih =>
    rw [candidates_succ]
    simp only [List.length_append, List.length_map, List.length_range, ih]
    ring

/-- No candidate is enumerated twice. -/
lemma nodup_candidates (n1 n2 : Nat) : (candidates n1 n2).Nodup := by
  induction n1 with
  | zero => simp [candidates]
  | succ n ih =>
    rw [candidates_succ]
    refine List.Nodup.append ih ?_ ?_
    · refine List.Nodup.map ?_ (List.nodup_range n2)
      intro a b hab
      simpa using hab
    · rw [List.disjoint_left]
      intro p hp hp2
      have h1 := (mem_candidates.mp hp).1
      obtain ⟨j, _, rfl⟩ := List.mem_map.mp hp2
      simp at h1

/-- Row-major placement: candidate `(i, j)` sits at position `i * n2 + j`. -/
lemma getElem?_candidates (n1 n2 i j : Nat) (hi : i < n1) (hj : j < n2) :
    (candidates n1 n2)[i * n2 + j]? = some (i, j) := by
  induction n1 with
  | zero => omega
  | succ n ih =>
    rw [candidates_succ, List.getElem?_append, candidates_length]
    by_cases h : i < n
    · have hlen : i * n2 + j < n * n2 := by
        calc i * n2 + j < i * n2 + n2 := by omega
          _ = (i + 1) * n2 := by ring
          _ ≤ n * n2 := Nat.mul_le_mul_right _ h
      rw [if_pos hlen]
      exact ih h
    · have hin : i = n := by omega
      subst hin
      rw [if_neg (by omega)]
      have he : i * n2 + j - i * n2 = j := by omega
      rw [he, List.getElem?_map, List.getElem?_range hj]
      rfl

/-- Each enumerated candidate occurs exactly once. -/
lemma count_candidates {n1 n2 : Nat} {p : Nat × Nat}
    (hp : p ∈ candidates n1 n2) :
    (candidates n1 n2).countP (fun q => decide (q = p)) = 1 := by
  have h := List.count_eq_one_of_mem (nodup_candidates n1 n2) hp
  simpa [List.count] using h

/-- The enumeration of a nonempty grid starts at candidate `(0, 0)`. -/
lemma candidates_head (n1 n2 : Nat) :
    ∃ t, candidates (n1 + 1) (n2 + 1) = (0, 0) :: t := by
  have h0 : (candidates (n1 + 1) (n2 + 1))[0]? = some (0, 0) := by
    have h := getElem?_candidates (n1 + 1) (n2 + 1) 0 0 (by omega) (by omega)
    simpa using h
  have hne : candidates (n1 + 1) (n2 + 1) ≠ [] := by
    intro h
    rw [h] at h0
    simp at h0
  obtain ⟨a, t, hl⟩ := List.exists_cons_of_ne_nil hne
  rw [hl] at h0
  simp only [List.getElem?_cons_zero, Option.some.injEq] at h0
  exact ⟨t, by rw [hl, h0]⟩

/-- With an everywhere-succeeding measurement the trial loop runs every
candidate, produces one four-event block per candidate, and folds the
ranking update over the results. -/
lemma runTrials_ok (bws : Nat × Nat → Int) (w : Workload) :
    ∀ (cs : List (Nat × Nat)) (s : Slots),
      runTrials (fun c => Except.ok (bws c)) w cs s
        = (cs.flatMap fun c => trialEvents c w,
           Except.ok (cs.foldl (fun s c => updateSlots s c.1 c.2 (bws c)) s)) := by
  intro cs
  induction cs with
  | nil => intro s; rfl
  | cons c cs ih =>
    intro s
    simp [runTrials, ih]

/-- Each trial block holds exactly one measurement invocation. -/
lemma countP_trialTrace (w : Workload) :
    ∀ cs : List (Nat × Nat),
      (cs.flatMap fun c => trialEvents c w).countP isRunFio = cs.length := by
  intro cs
  induction cs with
  | nil => rfl
  | cons c cs ih =>
    rw [List.flatMap_cons, List.countP_append, ih]
    simp [trialEvents, List.countP_cons, isRunFio]
    omega

/-- A nonempty trial loop emits at least the four events of its first
trial. -/
lemma four_le_runTrials_length (meas : Nat × Nat → Except Unit Int)
    (w : Workload) (c : Nat × Nat) (cs : List (Nat × Nat)) (s : Slots) :
    4 ≤ (runTrials meas w (c :: cs) s).1.length := by
  rw [runTrials]
  cases meas c with
  | error e => simp [trialEvents]
  | ok bw => simp [trialEvents]

/-- The first four events of a nonempty trial loop are the first trial's
block. -/
lemma runTrials_take_four (meas : Nat × Nat → Except Unit Int)
    (w : Workload) (c : Nat × Nat) (cs : List (Nat × Nat)) (s : Slots) :
    (runTrials meas w (c :: cs) s).1.take 4 = trialEvents c w := by
  rw [runTrials]
  cases meas c with
  | error e => simp [trialEvents]
  | ok bw =>
    rw [List.take_append_of_le_length (by simp [trialEvents])]
    simp [trialEvents]

/-! ### Concrete example streams -/

/-- The spec's K=3 example: samples `[5, 30, 20, 25]` at the four candidates
of a 2 by 2 grid in enumeration order (A, B, C, D). -/
def ex1 : List ((Nat × Nat) × Int) :=
  [((0, 0), 5), ((0, 1), 30), ((1, 0), 20), ((1, 1), 25)]

/-- A stream exposing the self-assignment bug: samples `[20, 5, 10, 1]` on
the same grid.  The true top-3 is `((0,0),20), ((1,0),10), ((0,1),5)`. -/
def ex2 : List ((Nat × Nat) × Int) :=
  [((0, 0), 20), ((0, 1), 5), ((1, 0), 10), ((1, 1), 1)]

/-- The spec's K=1 tie example: samples `[10, 20, 20, 15]` at A, B, C, D. -/
def exTie : List ((Nat × Nat) × Int) :=
  [((0, 0), 10), ((0, 1), 20), ((1, 0), 20), ((1, 1), 15)]

/-! ### Claims -/

/-- C1: the K=3 ranking of `tune_mixed_inc` does NOT maintain the true top-3
in general.  On the spec's own example stream `[5, 30, 20, 25]` the code does
produce `(B:30, D:25, C:20)` (first conjunct), but on the stream
`[20, 5, 10, 1]` the code's final slot 3 is candidate `(0,0)` with bandwidth
5, a pair that is not even a trial result of the stream, while the cascading
update the spec demands puts the true third-best `((0,1), 5)` there: the
self-assignments at lines 176 and 190 corrupt slots 2 and 3. -/
theorem claim_C1 :
    ((rankFold ex1).max_bw_1 = some 30
      ∧ (rankFold ex1).best_n_nonrot_1 = 0 ∧ (rankFold ex1).best_n_rot_1 = 1
      ∧ (rankFold ex1).max_bw_2 = some 25
      ∧ (rankFold ex1).best_n_nonrot_2 = 1 ∧ (rankFold ex1).best_n_rot_2 = 1
      ∧ (rankFold ex1).max_bw_3 = some 20
      ∧ (rankFold ex1).best_n_nonrot_3 = 1 ∧ (rankFold ex1).best_n_rot_3 = 0)
    ∧ ((rankFold ex2).max_bw_3 = some 5
      ∧ (rankFold ex2).best_n_nonrot_3 = 0 ∧ (rankFold ex2).best_n_rot_3 = 0
      ∧ ((0, 0), (5 : Int)) ∉ ex2
      ∧ (rankFoldCorrect ex2).max_bw_3 = some 5
      ∧ (rankFoldCorrect ex2).best_n_nonrot_3 = 0
      ∧ (rankFoldCorrect ex2).best_n_rot_3 = 1
      ∧ (rankFold ex2).best_n_rot_3 ≠ (rankFoldCorrect ex2).best_n_rot_3) := by
  decide

/-- C2: slot 1 of the code's ranking equals the maximum of the stream under
strict `>` on raw bandwidths: the maintained best bounds every sample, and it
is the first-enumerated result reaching that bound, so an exact tie keeps the
earlier candidate.  On `[10, 20, 20, 15]` at A, B, C, D the winner is
B `= (0,1)`, not C. -/
theorem claim_C2 :
    (∀ l, slot1 (rankFold l) = k1best l)
    ∧ (∀ l c m, k1best l = some (c, m) →
        (∀ p ∈ l, p.2 ≤ m)
          ∧ l.find? (fun p => decide (m ≤ p.2)) = some (c, m))
    ∧ slot1 (rankFold exTie) = some ((0, 1), 20) := by
  refine ⟨slot1_rankFold, fun l c m h => ⟨k1best_le l c m h, k1best_first l c m h⟩, ?_⟩
  decide

/-- Witness for C2: instantiating the tie-break characterization on the
spec's example stream. -/
theorem claim_C2_witness :
    (∀ p ∈ exTie, p.2 ≤ 20)
      ∧ exTie.find? (fun p => decide ((20 : Int) ≤ p.2))
          = some ((0, 1), 20) :=
  claim_C2.2.1 exTie (0, 1) 20 (by decide)

/-- C7: for every nonempty parsed fio output (as used by the trial path,
which parses with `to_mibs=False`), the first component is the first worker's
raw bandwidth, and the aggregate is absent exactly for a single worker and is
the raw sum of all workers' samples otherwise; empty output fails the
assertion. -/
theorem claim_C7 :
    (∀ (bw0 : Int) (rest : List Int),
        get_bandwidth (bw0 :: rest) false
          = some (bw0, if rest = [] then none else some ((bw0 :: rest).sum)))
    ∧ get_bandwidth [] false = none := by
  constructor
  · intro bw0 rest
    cases rest with
    | nil => rfl
    | cons b t => simp [get_bandwidth]
  · rfl

/-- Counterexample to C8: an override workload whose fio output reports two
workers (samples 100 and 200).  `run_fio` still parses it with
`fio.get_bandwidth`, so the trial result carries the aggregate `some 300`
rather than an absent aggregate. -/
theorem claim_C8_counterexample :
    run_fio_rt (fun _ => [100, 200]) 4 false BenchmarkType.seqread none "10G"
        (some "custom.fio")
      = some (100, some 300)
    ∧ ((run_fio_rt (fun _ => [100, 200]) 4 false BenchmarkType.seqread none
          "10G" (some "custom.fio")).map fun p => p.2) = some (some 300) := by
  decide

/-- C8 (amended): a caller-supplied override workload replaces workload
synthesis entirely — the trial result is exactly the parse of the override
job's output and is independent of the multithread flag, benchmark type,
loops, size and cpu count — and its aggregate component is absent if and only
if the override's output reports a single worker (it is the sum of the
workers' samples when there are more). -/
theorem claim_C8 :
    ∀ (oracle : Workload → List Int) (cpuCount cpuCount' : Nat)
      (mt mt' : Bool) (bt bt' : BenchmarkType) (loops loops' : Option Nat)
      (size size' : String) (j : String) (bw0 : Int) (rest : List Int),
      run_fio_rt oracle cpuCount mt bt loops size (some j)
          = get_bandwidth (oracle (Workload.jobFile j)) false
        ∧ run_fio_rt oracle cpuCount mt bt loops size (some j)
            = run_fio_rt oracle cpuCount' mt' bt' loops' size' (some j)
        ∧ (oracle (Workload.jobFile j) = bw0 :: rest →
            run_fio_rt oracle cpuCount mt bt loops size (some j)
              = some (bw0, if rest = [] then none
                  else some ((bw0 :: rest).sum))) := by
  intro oracle cpuCount cpuCount' mt mt' bt bt' loops loops' size size' j bw0 rest
  refine ⟨rfl, rfl, fun h => ?_⟩
  rw [run_fio_rt]
  show get_bandwidth (oracle (Workload.jobFile j)) false = _
  rw [h]
  cases rest with
  | nil => rfl
  | cons b t => simp [get_bandwidth]

/-- Witness for C8: the amended claim evaluated on a concrete two-worker
override output. -/
theorem claim_C8_witness :
    run_fio_rt (fun _ => [100, 200]) 2 true BenchmarkType.randread (some 5)
        "1G" (some "j.fio")
      = some (100, if ([(200 : Int)] : List Int) = [] then none
          else some (((100 : Int) :: [200]).sum)) :=
  (claim_C8 (fun _ => [100, 200]) 2 2 true true BenchmarkType.randread
    BenchmarkType.randread (some 5) (some 5) "1G" "1G" "j.fio" 100
    [200]).2.2 rfl

/-- Every measurement invocation in the trial-loop trace is at least the
fourth event, directly preceded by that trial's cache reset (three positions
earlier) and the two tunable writes, non-rotational then rotational, between
them. -/
lemma runFio_pos (meas : Nat × Nat → Except Unit Int) (w : Workload) :
    ∀ (cs : List (Nat × Nat)) (s : Slots) (n : Nat) (w' : Workload),
      ((runTrials meas w cs s).1)[n]? = some (Event.runFio w') →
      w' = w ∧ 3 ≤ n
        ∧ ((runTrials meas w cs s).1)[n - 3]? = some Event.dropCaches
        ∧ ∃ i j,
            ((runTrials meas w cs s).1)[n - 2]? = some (Event.setNonrot i)
            ∧ ((runTrials meas w cs s).1)[n - 1]? = some (Event.setRot j) := by
  intro cs
  induction cs with
  | nil =>
    intro s n w' h
    simp [runTrials] at h
  | cons c cs ih =>
    intro s n w' h
    cases hm : meas c with
    | error e =>
      simp only [runTrials, hm] at h ⊢
      rcases n with _ | _ | _ | _ | n
      · simp [trialEvents] at h
      · simp [trialEvents] at h
      · simp [trialEvents] at h
      · refine ⟨?_, by omega, by simp [trialEvents], c.1, c.2,
          by simp [trialEvents], by simp [trialEvents]⟩
        simp [trialEvents] at h
        exact h.symm
      · simp [trialEvents] at h
    | ok bw =>
      simp only [runTrials, hm] at h ⊢
      by_cases hn : n < 4
      · rw [List.getElem?_append, if_pos (by simpa [trialEvents] using hn)] at h
        rcases n with _ | _ | _ | _ | n
        · simp [trialEvents] at h
        · simp [trialEvents] at h
        · simp [trialEvents] at h
        · refine ⟨?_, by omega, ?_, c.1, c.2, ?_, ?_⟩
          · simp [trialEvents] at h
            exact h.symm
          · rw [List.getElem?_append, if_pos (by simp [trialEvents])]
            simp [trialEvents]
          · rw [List.getElem?_append, if_pos (by simp [trialEvents])]
            simp [trialEvents]
          · rw [List.getElem?_append, if_pos (by simp [trialEvents])]
            simp [trialEvents]
        · omega
      · rw [List.getElem?_append_right (by simpa [trialEvents] using hn)] at h
        have hlen : (trialEvents c w).length = 4 := rfl
        rw [hlen] at h
        obtain ⟨hw, h3, hd, i, j, hN, hR⟩ :=
          ih (updateSlots s c.1 c.2 bw) (n - 4) w' h
        refine ⟨hw, by omega, ?_, i, j, ?_, ?_⟩
        · rw [List.getElem?_append_right (by simp [trialEvents]; omega), hlen]
          have e1 : n - 3 - 4 = n - 4 - 3 := by omega
          rw [e1]
          exact hd
        · rw [List.getElem?_append_right (by simp [trialEvents]; omega), hlen]
          have e2 : n - 2 - 4 = n - 4 - 2 := by omega
          rw [e2]
          exact hN
        · rw [List.getElem?_append_right (by simp [trialEvents]; omega), hlen]
          have e3 : n - 1 - 4 = n - 4 - 1 := by omega
          rw [e3]
          exact hR

/-- C3: in joint mode the search enumerates the full Cartesian product in
row-major order — `(i, j)` is trial number `i * n2 + j`, the 2 by 2 grid is
enumerated as `(0,0), (0,1), (1,0), (1,1)` — every candidate is enumerated
exactly once, and a search whose measurements all succeed invokes fio exactly
`n1 * n2` times, with no pruning or early termination. -/
theorem claim_C3 :
    candidates 2 2 = [(0, 0), (0, 1), (1, 0), (1, 1)]
    ∧ (∀ n1 n2, (candidates n1 n2).length = n1 * n2)
    ∧ (∀ n1 n2 i j, i < n1 → j < n2 →
        (candidates n1 n2)[i * n2 + j]? = some (i, j))
    ∧ (∀ n1 n2 (p : Nat × Nat), p ∈ candidates n1 n2 →
        (candidates n1 n2).countP (fun q => decide (q = p)) = 1)
    ∧ (∀ (bws : Nat × Nat → Int) (cpuCount : Nat) (mt : Bool)
        (bt : BenchmarkType) (loops : Option Nat) (size : String)
        (n1 n2 : Nat) (job : Option String),
        ((tune_mixed_inc (fun c => Except.ok (bws c)) cpuCount mt bt loops
            size n1 n2 job).1).countP isRunFio = n1 * n2) := by
  refine ⟨by decide, candidates_length, getElem?_candidates,
    fun n1 n2 p hp => count_candidates hp, ?_⟩
  intro bws cpuCount mt bt loops size n1 n2 job
  simp only [tune_mixed_inc, runTrials_ok]
  rw [List.countP_append, countP_trialTrace, candidates_length]
  simp [isRunFio, List.countP_cons]

/-- Witness for C3: the index formula and the occurrence count evaluated on
the 3 by 4 grid. -/
theorem claim_C3_witness :
    (candidates 3 4)[1 * 4 + 2]? = some (1, 2)
    ∧ (candidates 3 4).countP (fun q => decide (q = ((2, 3) : Nat × Nat))) = 1 :=
  ⟨claim_C3.2.2.1 3 4 1 2 (by decide) (by decide),
   claim_C3.2.2.2.1 3 4 (2, 3) (by decide)⟩

/-- C4: in every trial, the very first included, the measurement invocation
is preceded within that trial by the cache reset and then the write of the
non-rotational and the rotational value: any `runFio` event at position `n`
of the loop trace has the trial's `dropCaches` at `n-3`, `setNonrot` at
`n-2` and `setRot` at `n-1`; and the first four events of any nonempty
search are `dropCaches, setNonrot 0, setRot 0, runFio w`. -/
theorem claim_C4 :
    (∀ (meas : Nat × Nat → Except Unit Int) (w : Workload)
        (cs : List (Nat × Nat)) (s : Slots) (n : Nat) (w' : Workload),
        ((runTrials meas w cs s).1)[n]? = some (Event.runFio w') →
        w' = w ∧ 3 ≤ n
          ∧ ((runTrials meas w cs s).1)[n - 3]? = some Event.dropCaches
          ∧ ∃ i j,
              ((runTrials meas w cs s).1)[n - 2]? = some (Event.setNonrot i)
              ∧ ((runTrials meas w cs s).1)[n - 1]? = some (Event.setRot j))
    ∧ (∀ (meas : Nat × Nat → Except Unit Int) (cpuCount : Nat) (mt : Bool)
        (bt : BenchmarkType) (loops : Option Nat) (size : String)
        (n1 n2 : Nat) (job : Option String),
        ((tune_mixed_inc meas cpuCount mt bt loops size (n1 + 1) (n2 + 1)
            job).1).take 4
          = [Event.dropCaches, Event.setNonrot 0, Event.setRot 0,
             Event.runFio (run_fio_workload cpuCount mt bt loops size job)]) := by
  refine ⟨runFio_pos, ?_⟩
  intro meas cpuCount mt bt loops size n1 n2 job
  obtain ⟨t, ht⟩ := candidates_head n1 n2
  simp only [tune_mixed_inc, ht]
  split
  · rw [runTrials_take_four]
    rfl
  · rw [List.take_append_of_le_length
      (four_le_runTrials_length meas _ _ t initSlots), runTrials_take_four]
    rfl

/-- A concrete measurement oracle for the C4 witness. -/
def measW : Nat × Nat → Except Unit Int := fun _ => Except.ok 7

/-- A concrete workload for the C4 witness. -/
def wW : Workload := Workload.jobFile "w.fio"

/-- A concrete candidate list for the C4 witness. -/
def csW : List (Nat × Nat) := [(0, 0), (0, 1)]

/-- Witness for C4: the second trial's measurement, at position 7 of the
concrete two-trial trace, is preceded by its own reset and writes. -/
theorem claim_C4_witness :
    Workload.jobFile "w.fio" = wW ∧ 3 ≤ 7
      ∧ ((runTrials measW wW csW initSlots).1)[7 - 3]? = some Event.dropCaches
      ∧ ∃ i j,
          ((runTrials measW wW csW initSlots).1)[7 - 2]?
            = some (Event.setNonrot i)
          ∧ ((runTrials measW wW csW initSlots).1)[7 - 1]?
            = some (Event.setRot j) :=
  claim_C4.1 measW wW csW initSlots 7 (Workload.jobFile "w.fio") (by decide)

/-- A trial block contains no policy write. -/
lemma filter_setPolicy_trialEvents (c : Nat × Nat) (w : Workload) :
    (trialEvents c w).filter isSetPolicy = [] := rfl

/-- The trial loop writes no policy, whatever the measurement outcomes. -/
lemma runTrials_filter_setPolicy (meas : Nat × Nat → Except Unit Int)
    (w : Workload) :
    ∀ (cs : List (Nat × Nat)) (s : Slots),
      ((runTrials meas w cs s).1).filter isSetPolicy = [] := by
  intro cs
  induction cs with
  | nil => intro s; rfl
  | cons c cs ih =>
    intro s
    cases hm : meas c with
    | error e =>
      simp only [runTrials, hm]
      rfl
    | ok bw =>
      simp only [runTrials, hm]
      rw [List.filter_append, ih, filter_setPolicy_trialEvents]
      rfl

/-- The whole search (trials plus commit) writes no policy. -/
lemma tune_filter_setPolicy (meas : Nat × Nat → Except Unit Int)
    (cpuCount : Nat) (mt : Bool) (bt : BenchmarkType) (loops : Option Nat)
    (size : String) (n1 n2 : Nat) (job : Option String) :
    ((tune_mixed_inc meas cpuCount mt bt loops size n1 n2 job).1).filter
      isSetPolicy = [] := by
  simp only [tune_mixed_inc]
  split
  · exact runTrials_filter_setPolicy meas _ _ initSlots
  · rw [List.filter_append, runTrials_filter_setPolicy]
    rfl

/-- The last event of a full run is the restoring policy write. -/
lemma mainRun_getLast (content : String) (meas : Nat × Nat → Except Unit Int)
    (cpuCount : Nat) (mt : Bool) (bt : BenchmarkType) (loops : Option Nat)
    (size : String) (n1 n2 : Nat) (job : Option String) :
    ((mainRun content meas cpuCount mt bt loops size n1 n2 job).1).getLast?
      = some (Event.setPolicy (oldPolicyOf content)) := by
  simp only [mainRun]
  rw [← List.cons_append, List.getLast?_concat]

/-- A fold that keeps the image of the last element satisfying a test. -/
lemma foldl_if_getLast (P : String → Bool) (f : String → String) :
    ∀ (l : List String) (a0 : String),
      l.foldl (fun a x => if P x then f x else a) a0
        = ((l.filter P).getLast?.map f).getD a0 := by
  intro l
  induction l using List.reverseRecOn with
  | nil => intro a0; rfl
  | append_singleton l x ih =>
    intro a0
    rw [List.foldl_append, List.filter_append]
    by_cases hP : P x
    · simp [hP, List.getLast?_concat]
    · simp [hP, ih]

/-- The `old_policy` of `set_policy` is the stripped last bracketed word of
the policy file, or the literal `"pid"` when no word is bracketed. -/
lemma oldPolicy_char (content : String) :
    oldPolicyOf content
      = ((((splitWs content).filter fun p => p.startsWith "[").getLast?).map
          stripFirstLast).getD "pid" :=
  foldl_if_getLast (fun p => p.startsWith "[") stripFirstLast
    (splitWs content) "pid"

/-- C5: whatever the measurement outcomes — the body failing at any trial or
completing normally — a full run performs exactly two policy writes, the
acquisition write of `"roundrobin"` and then exactly one restore of the
previously active policy, and that restore is the run's final event. -/
theorem claim_C5 :
    ∀ (content : String) (meas : Nat × Nat → Except Unit Int)
      (cpuCount : Nat) (mt : Bool) (bt : BenchmarkType) (loops : Option Nat)
      (size : String) (n1 n2 : Nat) (job : Option String),
      ((mainRun content meas cpuCount mt bt loops size n1 n2 job).1).filter
          isSetPolicy
        = [Event.setPolicy "roundrobin",
           Event.setPolicy (oldPolicyOf content)]
      ∧ ((mainRun content meas cpuCount mt bt loops size n1 n2
          job).1).getLast?
        = some (Event.setPolicy (oldPolicyOf content)) := by
  intro content meas cpuCount mt bt loops size n1 n2 job
  refine ⟨?_, mainRun_getLast content meas cpuCount mt bt loops size n1 n2 job⟩
  simp only [mainRun]
  rw [List.filter_cons, List.filter_append, tune_filter_setPolicy]
  simp [isSetPolicy]

/-- C6: with an everywhere-succeeding measurement the search completes and
its trace is the loop trace followed by exactly two tunable writes carrying
slot 1's candidate values; the commit suffix contains no measurement and no
cache reset, and writes nothing from slots 2 and 3. -/
theorem claim_C6 :
    ∀ (bws : Nat × Nat → Int) (cpuCount : Nat) (mt : Bool)
      (bt : BenchmarkType) (loops : Option Nat) (size : String)
      (n1 n2 : Nat) (job : Option String),
      ∃ s : Slots,
        (tune_mixed_inc (fun c => Except.ok (bws c)) cpuCount mt bt loops
            size n1 n2 job).2 = Except.ok s
        ∧ (tune_mixed_inc (fun c => Except.ok (bws c)) cpuCount mt bt loops
            size n1 n2 job).1
          = ((candidates n1 n2).flatMap fun c =>
              trialEvents c (run_fio_workload cpuCount mt bt loops size job))
            ++ [Event.setNonrot s.best_n_nonrot_1,
                Event.setRot s.best_n_rot_1]
        ∧ s = rankFold ((candidates n1 n2).map fun c => (c, bws c))
        ∧ [Event.setNonrot s.best_n_nonrot_1,
           Event.setRot s.best_n_rot_1].countP isRunFio = 0
        ∧ [Event.setNonrot s.best_n_nonrot_1,
           Event.setRot s.best_n_rot_1].countP isDropCaches = 0 := by
  intro bws cpuCount mt bt loops size n1 n2 job
  refine ⟨(candidates n1 n2).foldl
      (fun s c => updateSlots s c.1 c.2 (bws c)) initSlots,
    ?_, ?_, ?_, ?_, ?_⟩
  · simp [tune_mixed_inc, runTrials_ok]
  · simp [tune_mixed_inc, runTrials_ok]
  · rw [rankFold, List.foldl_map]
  · simp [isRunFio, List.countP_cons]
  · simp [isDropCaches, List.countP_cons]

/-- C9: the single-axis entry points accept `loops` and `size` but do not
forward them: both runs are literally `tune_mixed_inc` at the defaults
(`N_ITER` sweep on one axis, singleton `{0}` on the other), so the result is
independent of the two arguments, and the workload synthesized at the
defaults uses `loops = 3` and `size = "10G"`. -/
theorem claim_C9 :
    ∀ (meas : Nat × Nat → Except Unit Int) (cpuCount : Nat) (mt : Bool)
      (bt : BenchmarkType) (loops loops' : Option Nat) (size size' : String)
      (job : Option String),
      tune_nonrot_inc meas cpuCount mt bt loops size job
          = tune_nonrot_inc meas cpuCount mt bt loops' size' job
        ∧ tune_rot_inc meas cpuCount mt bt loops size job
          = tune_rot_inc meas cpuCount mt bt loops' size' job
        ∧ tune_nonrot_inc meas cpuCount mt bt loops size job
          = tune_mixed_inc meas cpuCount mt bt (some DEFAULT_LOOPS)
              DEFAULT_SIZE N_ITER 1 job
        ∧ tune_rot_inc meas cpuCount mt bt loops size job
          = tune_mixed_inc meas cpuCount mt bt (some DEFAULT_LOOPS)
              DEFAULT_SIZE 1 N_ITER job
        ∧ run_fio_workload cpuCount mt bt (some DEFAULT_LOOPS) DEFAULT_SIZE
            none
          = Workload.synthesized
              { rw := rwOf bt, loops := 3,
                numjobs := if mt then cpuCount else 1, size := "10G" } := by
  intro meas cpuCount mt bt loops loops' size size' job
  refine ⟨rfl, rfl, rfl, rfl, ?_⟩
  cases mt
  · rfl
  · rfl

/-- C10: the restore value written on release is the literal fallback
`"pid"` when no entry of the policy file read at acquisition is wrapped in
square brackets, and the stripped last bracketed entry otherwise; the run's
final event writes exactly this value. -/
theorem claim_C10 :
    ∀ (content : String) (meas : Nat × Nat → Except Unit Int)
      (cpuCount : Nat) (mt : Bool) (bt : BenchmarkType) (loops : Option Nat)
      (size : String) (n1 n2 : Nat) (job : Option String),
      oldPolicyOf content
          = ((((splitWs content).filter fun p => p.startsWith "[").getLast?).map
              stripFirstLast).getD "pid"
        ∧ ((mainRun content meas cpuCount mt bt loops size n1 n2
            job).1).getLast?
          = some (Event.setPolicy
              (((((splitWs content).filter fun p =>
                    p.startsWith "[").getLast?).map stripFirstLast).getD
                "pid")) := by
  intro content meas cpuCount mt bt loops size n1 n2 job
  refine ⟨oldPolicy_char content, ?_⟩
  rw [mainRun_getLast, oldPolicy_char]

end BtrfsPerf
